import Mathlib

/-!
Shallow embedding of the slideshow application (src/app.py) and proofs
about the claims of its specification.

Conventions of the embedding:
  * Python dictionaries describing Drive items become structures;
    `item.get(k, default)` becomes `Option` plus `getD`.
  * The paginated listing loop (a `while True`) is modelled with explicit
    fuel; `none` stands for "the loop would still be requesting pages".
  * Python string lowercasing is modelled by `Char.toLower` (they agree on
    the ASCII alphabet, which is all that the extension allowlist uses).
  * Python's stable sort (`list.sort` / `sorted`) is modelled by
    `List.insertionSort`, which is also stable, hence produces the same
    sequence for any key-based comparison.
  * Streamlit session state becomes the explicit `SessionState` structure;
    each button handler becomes a function on it.
-/

/-- Characters of a string, lowercased as Python's `str.lower` does for ASCII. -/
def lowerChars (l : List Char) : List Char := l.map Char.toLower

/-- One entry of a Drive `files().list` response page (app.py lines 183-206).
`size`, `createdTime`, `modifiedTime`, `mimeType` are optional because the
code reads them with `item.get(key, default)`. -/
structure RawItem where
  id : String
  name : String
  size : Option Nat
  createdTime : Option String
  modifiedTime : Option String
  mimeType : Option String
deriving DecidableEq

/-- The dictionary the code appends to `files` for an accepted item
(app.py lines 197-206). -/
structure MediaFile where
  id : String
  name : String
  ext : String
  size : Nat
  created : String
  modified : String
  mime_type : String
  source : String
deriving DecidableEq

/-- app.py line 40. -/
def IMAGE_EXT : List String := [".jpg", ".jpeg", ".png", ".heic", ".gif", ".bmp", ".webp"]

/-- app.py line 41. -/
def VIDEO_EXT : List String := [".mp4", ".mov", ".m4v", ".avi", ".mkv", ".webm"]

/-- `os.path.splitext(name)[1]` on the characters of `name` (posixpath):
the extension starts at the last dot that comes after the last `/`,
provided at least one non-dot character precedes it within the basename
(leading dots of the basename never start an extension). -/
def extCore (name : List Char) : List Char :=
  let revBase := (name.reverse).takeWhile (fun c => c != '/')
  let pre := revBase.takeWhile (fun c => c != '.')
  if pre.length = revBase.length then []
  else if (revBase.drop (pre.length + 1)).any (fun c => c != '.') then
    '.' :: pre.reverse
  else []

/-- `os.path.splitext(name)[1]` as a `String`. -/
def extOfName (name : String) : String := String.mk (extCore name.toList)

/-- The per-item body of the listing loop (app.py lines 192-206): compute
`os.path.splitext(name)[1].lower()`; keep the item iff the extension is in
`IMAGE_EXT + VIDEO_EXT`, building the stored dictionary. -/
def mediaOf (it : RawItem) : Option MediaFile :=
  let ext := String.mk (lowerChars (extCore it.name.toList))
  if (IMAGE_EXT ++ VIDEO_EXT).contains ext then
    some { id := it.id, name := it.name, ext := ext,
           size := it.size.getD 0,
           created := it.createdTime.getD "",
           modified := it.modifiedTime.getD "",
           mime_type := it.mimeType.getD "",
           source := "gdrive" }
  else none

/-- One response of the remote list endpoint (app.py lines 183-190):
a batch of items plus an optional continuation token. The token type is
opaque to the code, so it is a parameter. -/
structure DrivePage (τ : Type) where
  files : List RawItem
  nextPageToken : Option τ
deriving DecidableEq

/-- The `while True` pagination loop of `load_gdrive_files`
(app.py lines 179-211), with fuel bounding the number of endpoint
requests. `none` means the loop would still be iterating. -/
def loadLoop {τ ε : Type} (ep : Option τ → Except ε (DrivePage τ)) :
    Nat → Option τ → List MediaFile → Option (Except ε (List MediaFile))
  | 0, _, _ => none
  | Nat.succ fuel, tok, acc =>
    match ep tok with
    | Except.error e => some (Except.error e)
    | Except.ok pg =>
      match pg.nextPageToken with
      | none => some (Except.ok (acc ++ pg.files.filterMap mediaOf))
      | some t2 => loadLoop ep fuel (some t2) (acc ++ pg.files.filterMap mediaOf)

/-- `load_gdrive_files` (app.py lines 176-215). The whole loop sits in a
`try`; on any exception the code shows `st.error(...)` mentioning the
exception and returns `[]`. The result is `(displayed error, files)`. -/
def load_gdrive_files {τ ε : Type} (ep : Option τ → Except ε (DrivePage τ)) (fuel : Nat) :
    Option (Option ε × List MediaFile) :=
  match loadLoop ep fuel none [] with
  | none => none
  | some (Except.ok fs) => some (none, fs)
  | some (Except.error e) => some (some e, [])

/-- The endpoint, starting from token `t`, serves exactly the pages with
these item batches: every page carries a token for the next one and the
last page carries none. -/
inductive PageChain {τ ε : Type} (ep : Option τ → Except ε (DrivePage τ)) :
    Option τ → List (List RawItem) → Prop where
  | last : ∀ {t : Option τ} {items : List RawItem},
      ep t = Except.ok { files := items, nextPageToken := none } →
      PageChain ep t [items]
  | more : ∀ {t : Option τ} {items : List RawItem} {t2 : τ} {rest : List (List RawItem)},
      ep t = Except.ok { files := items, nextPageToken := some t2 } →
      PageChain ep (some t2) rest →
      PageChain ep t (items :: rest)

/-- The endpoint, starting from token `t`, serves `k` pages that each carry
a continuation token, and then the `(k+1)`-st request fails with `e`. -/
inductive PageChainErr {τ ε : Type} (ep : Option τ → Except ε (DrivePage τ)) :
    Option τ → Nat → ε → Prop where
  | here : ∀ {t : Option τ} {e : ε}, ep t = Except.error e → PageChainErr ep t 0 e
  | later : ∀ {t : Option τ} {items : List RawItem} {t2 : τ} {k : Nat} {e : ε},
      ep t = Except.ok { files := items, nextPageToken := some t2 } →
      PageChainErr ep (some t2) k e →
      PageChainErr ep t (k + 1) e

/-- The session state the handlers mutate (app.py lines 20-31; only the
fields the formalised handlers touch). -/
structure SessionState where
  files : List MediaFile
  current_idx : Int
  is_playing : Bool
  loop_mode : Bool
  loaded : Bool
deriving DecidableEq

/-- `(i + 1) % n` with Python integer semantics: `Int.emod` agrees with
Python `%` for a positive modulus. `n` is `len(filtered_files)`. -/
def nextIdx (n : Nat) (i : Int) : Int := (i + 1) % (n : Int)

/-- `(i - 1) % n` with Python integer semantics. -/
def prevIdx (n : Nat) (i : Int) : Int := (i - 1) % (n : Int)

/-- The First button handler (app.py lines 571-574). -/
def firstHandler (s : SessionState) : SessionState :=
  { s with current_idx := 0, is_playing := false }

/-- The Prev button handler (app.py lines 577-580). -/
def prevHandler (n : Nat) (s : SessionState) : SessionState :=
  { s with current_idx := prevIdx n s.current_idx, is_playing := false }

/-- The Next button handler (app.py lines 593-596). -/
def nextHandler (n : Nat) (s : SessionState) : SessionState :=
  { s with current_idx := nextIdx n s.current_idx, is_playing := false }

/-- The Last button handler (app.py lines 599-602). -/
def lastHandler (n : Nat) (s : SessionState) : SessionState :=
  { s with current_idx := (n : Int) - 1, is_playing := false }

/-- The Random button handler (app.py lines 605-609); `r` is the value
`random.randint(0, len(filtered_files) - 1)` produced. -/
def randomHandler (r : Int) (s : SessionState) : SessionState :=
  { s with current_idx := r, is_playing := false }

/-- The auto-advance block (app.py lines 662-672): runs only while
playing; advances the index modulo `n`; if loop mode is off and the new
index wrapped to 0, stops playing. -/
def autoTick (n : Nat) (s : SessionState) : SessionState :=
  if s.is_playing then
    let s2 := { s with current_idx := nextIdx n s.current_idx }
    if s.loop_mode = false ∧ s2.current_idx = 0 then { s2 with is_playing := false }
    else s2
  else s

/-- The character class `[a-zA-Z0-9_-]` of the two regexes in
`extract_folder_id` (app.py lines 99 and 103). -/
def isIdChar (c : Char) : Bool := c.isAlphanum || c == '_' || c == '-'

/-- Does `s` start with `lit`? -/
def startsWithChars : List Char → List Char → Bool
  | [], _ => true
  | _ :: _, [] => false
  | a :: as, b :: bs => a == b && startsWithChars as bs

/-- Python `lit in s` (substring containment). -/
def containsSub (lit : List Char) : List Char → Bool
  | [] => lit.isEmpty
  | c :: rest => startsWithChars lit (c :: rest) || containsSub lit rest

/-- `re.search(lit + r'([a-zA-Z0-9_-]+)', s).group(1)`: at the leftmost
position where the literal is followed by at least one id character,
return the maximal id-character run after the literal. -/
def searchAfterLit (lit : List Char) : List Char → Option (List Char)
  | [] => none
  | c :: rest =>
    if startsWithChars lit (c :: rest) then
      let run := ((c :: rest).drop lit.length).takeWhile isIdChar
      if run.isEmpty then searchAfterLit lit rest else some run
    else searchAfterLit lit rest

/-- The `id=` regex of app.py line 99. -/
def idSearch (u : List Char) : Option (List Char) := searchAfterLit "id=".toList u

/-- The `/folders/` regex of app.py line 103. -/
def folderSearch (u : List Char) : Option (List Char) := searchAfterLit "/folders/".toList u

/-- `extract_folder_id` (app.py lines 96-108): if `"id=" in url`, try the
`id=` regex and return its group on a match; otherwise, if
`"/folders/" in url`, try the `/folders/` regex; otherwise return `None`.
(The `try` never fires: the body raises nothing.) -/
def extract_folder_id (url : String) : Option String :=
  match (if containsSub "id=".toList url.toList then idSearch url.toList else none) with
  | some g => some (String.mk g)
  | none =>
    match (if containsSub "/folders/".toList url.toList then folderSearch url.toList else none) with
    | some g => some (String.mk g)
    | none => none

/-- Modelled from the claim's words (for comparison with the code): a bare
identifier is a nonempty string made only of id characters. -/
def bareIdentifier (u : List Char) : Option (List Char) :=
  if !u.isEmpty && u.all isIdChar then some u else none

/-- Modelled from the claim's words (for comparison with the code): try
"path segment following /folders/", then "query parameter id=", then "the
whole string if it is a bare identifier", in that order; `none` models
`InvalidReference`. -/
def extractClaim (url : String) : Option String :=
  match folderSearch url.toList with
  | some g => some (String.mk g)
  | none =>
    match idSearch url.toList with
    | some g => some (String.mk g)
    | none =>
      match bareIdentifier url.toList with
      | some g => some (String.mk g)
      | none => none

/-- The amended contract: try the `id=` pattern first, then `/folders/`;
there is no bare-identifier fallback; `none` models failure. -/
def extractAmended (url : String) : Option String :=
  match idSearch url.toList with
  | some g => some (String.mk g)
  | none =>
    match folderSearch url.toList with
    | some g => some (String.mk g)
    | none => none

/-- Python's `str` comparison: lexicographic on code points. -/
def charListLe : List Char → List Char → Bool
  | [], _ => true
  | _ :: _, [] => false
  | a :: as, b :: bs =>
    if a.toNat < b.toNat then true
    else if b.toNat < a.toNat then false
    else charListLe as bs

/-- Python `a <= b` on strings. -/
def strLe (a b : String) : Bool := charListLe a.toList b.toList

/-- Name order used by the Google Drive load handler,
`sorted(files, key=lambda x: x['name'])` (app.py line 322). -/
def nameLe (a b : MediaFile) : Prop := strLe a.name b.name = true

instance : DecidableRel nameLe := fun a b => inferInstanceAs (Decidable (strLe a.name b.name = true))

instance : IsTotal MediaFile nameLe := by
  constructor
  have H : ∀ x y : List Char, charListLe x y = true ∨ charListLe y x = true := by
    intro x
    induction x with
    | nil => intro y; left; rfl
    | cons a as ih =>
      intro y
      cases y with
      | nil => right; rfl
      | cons b bs =>
        by_cases h1 : a.toNat < b.toNat
        · left; simp [charListLe, h1]
        · by_cases h2 : b.toNat < a.toNat
          · right; simp [charListLe, h2]
          · rcases ih bs with h | h
            · left; simp [charListLe, h1, h2, h]
            · right; simp [charListLe, h1, h2, h]
  intro a b
  exact H a.name.toList b.name.toList

instance : IsTrans MediaFile nameLe := by
  constructor
  have step : ∀ (a b : Char) (as bs : List Char),
      charListLe (a :: as) (b :: bs) = true ↔
        (a.toNat < b.toNat ∨ (a.toNat = b.toNat ∧ charListLe as bs = true)) := by
    intro a b as bs
    by_cases h1 : a.toNat < b.toNat
    · simp only [charListLe, if_pos h1]
      constructor
      · intro _; left; exact h1
      · intro _; trivial
    · by_cases h2 : b.toNat < a.toNat
      · simp only [charListLe, if_neg h1, if_pos h2]
        constructor
        · intro h; simp at h
        · rintro (h | ⟨h, -⟩) <;> omega
      · simp only [charListLe, if_neg h1, if_neg h2]
        constructor
        · intro h; right; exact ⟨by omega, h⟩
        · rintro (h | ⟨-, h⟩)
          · exact absurd h h1
          · exact h
  have H : ∀ x y z : List Char, charListLe x y = true → charListLe y z = true →
      charListLe x z = true := by
    intro x
    induction x with
    | nil => intro y z _ _; rfl
    | cons a as ih =>
      intro y z hxy hyz
      cases y with
      | nil => simp [charListLe] at hxy
      | cons b bs =>
        cases z with
        | nil => simp [charListLe] at hyz
        | cons c cs =>
          rw [step] at hxy hyz ⊢
          rcases hxy with h1 | ⟨h1, h1r⟩
          · rcases hyz with h2 | ⟨h2, -⟩
            · left; omega
            · left; omega
          · rcases hyz with h2 | ⟨h2, h2r⟩
            · left; omega
            · right; exact ⟨by omega, ih bs cs h1r h2r⟩
  intro a b c hab hbc
  exact H a.name.toList b.name.toList c.name.toList hab hbc

/-- The "Load Files from Google Drive" handler once `load_gdrive_files`
has returned `loaded` (app.py lines 320-329): if the list is nonempty,
store it sorted by name, reset the index to 0 and mark the session
loaded; otherwise only warn. `List.insertionSort` models Python's
stable `sorted`. -/
def loadFilesHandler (loaded : List MediaFile) (s : SessionState) : SessionState :=
  if loaded.isEmpty then s
  else { s with files := List.insertionSort nameLe loaded, current_idx := 0, loaded := true }

/-- Python `str.lower` (ASCII) as a `String` function. -/
def lowerStr (s : String) : String := String.mk (lowerChars s.toList)

/-- The options of the "Apply Sort" selectbox (app.py lines 409-431). -/
inductive SortOption where
  | nameAZ
  | nameZA
  | modNew
  | modOld
  | sizeLarge
  | sizeSmall
  | shuffle
deriving DecidableEq

/-- The sort applied by the "Apply Sort" handler (app.py lines 417-431).
Python's `list.sort` is stable; with `reverse=True` it is the stable sort
by the flipped comparison; `random.shuffle` is an externally chosen
rearrangement, passed in as `shuffleResult`. -/
def sortFiles (opt : SortOption) (shuffleResult : List MediaFile → List MediaFile)
    (fs : List MediaFile) : List MediaFile :=
  match opt with
  | SortOption.nameAZ => List.insertionSort (fun a b => strLe (lowerStr a.name) (lowerStr b.name) = true) fs
  | SortOption.nameZA => List.insertionSort (fun a b => strLe (lowerStr b.name) (lowerStr a.name) = true) fs
  | SortOption.modNew => List.insertionSort (fun a b => strLe b.modified a.modified = true) fs
  | SortOption.modOld => List.insertionSort (fun a b => strLe a.modified b.modified = true) fs
  | SortOption.sizeLarge => List.insertionSort (fun a b => b.size ≤ a.size) fs
  | SortOption.sizeSmall => List.insertionSort (fun a b => a.size ≤ b.size) fs
  | SortOption.shuffle => shuffleResult fs

/-- The "Apply Sort" button handler (app.py lines 415-434): only acts when
the file list is nonempty; sorts it in place and resets the index to 0.
`is_playing` is not touched. -/
def applySortHandler (opt : SortOption) (shuffleResult : List MediaFile → List MediaFile)
    (s : SessionState) : SessionState :=
  if s.files.isEmpty then s
  else { s with files := sortFiles opt shuffleResult s.files, current_idx := 0 }

/-- `type_match` of the filter block (app.py line 546). -/
def typeMatch (showImages showVideos : Bool) (f : MediaFile) : Bool :=
  (IMAGE_EXT.contains f.ext && showImages) || (VIDEO_EXT.contains f.ext && showVideos)

/-- `ext_match` of the filter block (app.py line 547): `none` models
"`selected_extensions` not in `locals()`". -/
def extMatch (sel : Option (List String)) (f : MediaFile) : Bool :=
  match sel with
  | none => true
  | some l => l.contains f.ext

/-- `filtered_files` (app.py lines 544-549). -/
def filteredFiles (showImages showVideos : Bool) (sel : Option (List String))
    (files : List MediaFile) : List MediaFile :=
  files.filter (fun f => typeMatch showImages showVideos f && extMatch sel f)

/-- The index correction of app.py lines 555-556: reset to 0 only when the
index is at or past the end of the filtered list. -/
def clampIdx (n : Nat) (idx : Int) : Int := if (n : Int) ≤ idx then 0 else idx

/-- The whole filter block as observed by the rest of the render
(app.py lines 544-556): the filtered list and the resulting index. When
the filtered list is empty the code only shows a warning (lines 551-552)
and `current_idx` is left untouched; the clamp of lines 555-556 runs only
in the `else` branch. Session state is otherwise untouched. -/
def filterBlock (showImages showVideos : Bool) (sel : Option (List String))
    (s : SessionState) : List MediaFile × Int :=
  if (filteredFiles showImages showVideos sel s.files).isEmpty then
    (filteredFiles showImages showVideos sel s.files, s.current_idx)
  else
    (filteredFiles showImages showVideos sel s.files,
      clampIdx (filteredFiles showImages showVideos sel s.files).length s.current_idx)

/-- The cached OAuth token of `st.session_state.token_pickle`
(app.py lines 127-134), reduced to the three flags the code branches on. -/
structure CredState where
  valid : Bool
  expired : Bool
  hasRefreshToken : Bool
deriving DecidableEq

/-- The environment of one call to `initialize_drive_service`: the cached
token, whether `creds.refresh` succeeds, the pasted authorization code
(empty text input is `none`), whether `fetch_token` succeeds, and whether
`build` succeeds. -/
structure AuthScenario where
  cached : Option CredState
  refreshOk : Bool
  authCode : Option String
  fetchOk : Bool
  buildOk : Bool
deriving DecidableEq

/-- How a call to `initialize_drive_service` came back to the caller. -/
inductive AuthResult where
  | service
  | noService
deriving DecidableEq

/-- The interactive branch of `initialize_drive_service`
(app.py lines 136-161). With no pasted code the function returns `None`
(line 161). With a code, `fetch_token` either raises (caught at line 157,
returns `None` at line 159) or succeeds, after which `st.rerun()`
(line 156) ends the run before line 165; on none of these paths is the
temporary file unlinked. -/
def interactiveExchange (authCode : Option String) (fetchOk : Bool) : AuthResult × Bool :=
  match authCode with
  | none => (AuthResult.noService, false)
  | some _ =>
    if fetchOk then (AuthResult.noService, false)
    else (AuthResult.noService, false)

/-- `initialize_drive_service` (app.py lines 111-173), abstracted to the
returned result and whether `os.unlink(temp_creds_path.name)` (line 165)
ran before exit. The temporary credentials file is created up front
(lines 120-122) on every path modelled here; `os.unlink` only runs on the
path that reaches `build` successfully. An exception anywhere is caught at
line 171 and yields `None` without unlinking. -/
def initialize_drive_service (sc : AuthScenario) : AuthResult × Bool :=
  match sc.cached with
  | none => interactiveExchange sc.authCode sc.fetchOk
  | some c =>
    if c.valid then
      (if sc.buildOk then (AuthResult.service, true) else (AuthResult.noService, false))
    else if c.expired && c.hasRefreshToken then
      (if sc.refreshOk then
        (if sc.buildOk then (AuthResult.service, true) else (AuthResult.noService, false))
      else (AuthResult.noService, false))
    else interactiveExchange sc.authCode sc.fetchOk

/-- `io.BytesIO` as used by the downloader: contents plus stream position. -/
structure BytesBuf where
  data : List Nat
  pos : Nat
deriving DecidableEq

/-- A chunk write: `MediaIoBaseDownload.next_chunk` appends the received
bytes at the end of the buffer. -/
def BytesBuf.write (b : BytesBuf) (bs : List Nat) : BytesBuf :=
  { data := b.data ++ bs, pos := b.data.length + bs.length }

/-- `file_content.seek(0)` (app.py line 230). -/
def BytesBuf.seekStart (b : BytesBuf) : BytesBuf := { b with pos := 0 }

/-- The `while not done` loop of `download_gdrive_file`
(app.py lines 226-228) over the successive results of `next_chunk`:
each call either raises or delivers bytes plus the done flag. `none`
means the transport never reported completion. -/
def downloadLoop {ε : Type} : List (Except ε (List Nat × Bool)) → BytesBuf →
    Option (Except ε BytesBuf)
  | [], _ => none
  | Except.error e :: _, _ => some (Except.error e)
  | Except.ok (bs, done) :: rest, buf =>
    let buf2 := buf.write bs
    if done then some (Except.ok buf2.seekStart) else downloadLoop rest buf2

/-- `download_gdrive_file` (app.py lines 218-234): on completion, seek to
the start and return the buffer; on any exception, show `st.error(...)`
mentioning it and return `None`. The result is
`(displayed error, returned buffer)`. -/
def download_gdrive_file {ε : Type} (rs : List (Except ε (List Nat × Bool))) :
    Option (Option ε × Option BytesBuf) :=
  match downloadLoop rs { data := [], pos := 0 } with
  | none => none
  | some (Except.ok buf) => some (none, some buf)
  | some (Except.error e) => some (some e, none)

/-- Concrete item "b.jpg" used to exhibit the listing order of claim C3. -/
def c3RawB : RawItem :=
  { id := "1", name := "b.jpg", size := none, createdTime := none, modifiedTime := none, mimeType := none }

/-- Concrete item "a.jpg" used to exhibit the listing order of claim C3. -/
def c3RawA : RawItem :=
  { id := "2", name := "a.jpg", size := none, createdTime := none, modifiedTime := none, mimeType := none }

/-- The `MediaFile` the code builds from `c3RawB`. -/
def c3MB : MediaFile :=
  { id := "1", name := "b.jpg", ext := ".jpg", size := 0, created := "", modified := "",
    mime_type := "", source := "gdrive" }

/-- The `MediaFile` the code builds from `c3RawA`. -/
def c3MA : MediaFile :=
  { id := "2", name := "a.jpg", ext := ".jpg", size := 0, created := "", modified := "",
    mime_type := "", source := "gdrive" }

/-- A one-page endpoint whose arrival order is "b.jpg" then "a.jpg". -/
def c3Ep : Option Nat → Except Unit (DrivePage Nat) :=
  fun _ => Except.ok { files := [c3RawB, c3RawA], nextPageToken := none }

/-- A fresh session for claim C3. -/
def c3St : SessionState :=
  { files := [], current_idx := 0, is_playing := false, loop_mode := true, loaded := false }

/-- A remote item named ".jpg": its whole name is its trailing dot-suffix,
but `os.path.splitext` gives it no extension. -/
def c4DotRaw : RawItem :=
  { id := "a", name := ".jpg", size := none, createdTime := none, modifiedTime := none, mimeType := none }

/-- A one-page endpoint serving only the ".jpg" item. -/
def c4DotEp : Option Nat → Except Unit (DrivePage Nat) :=
  fun _ => Except.ok { files := [c4DotRaw], nextPageToken := none }

/-- Modelled from the claim's words (for comparison with the code): the
extension as "the trailing dot-suffix of the name", lowercased; `none`
when the name has no dot. -/
def claimExt (name : String) : Option String :=
  if name.toList.contains '.' then
    some (String.mk (lowerChars ('.' :: (name.toList.reverse.takeWhile (fun c => c != '.')).reverse)))
  else none

/-- Modelled from the claim's words: keep an entry iff its trailing
dot-suffix extension is in the allowlist (entries without a dot are
skipped). -/
def claimKeep (it : RawItem) : Bool :=
  match claimExt it.name with
  | none => false
  | some e => (IMAGE_EXT ++ VIDEO_EXT).contains e

/-- Page 1 item of the spec's two-page scenario for claim C4. -/
def c4wRawX : RawItem :=
  { id := "a", name := "x.jpg", size := none, createdTime := none, modifiedTime := none, mimeType := none }

/-- Page 2 item of the spec's two-page scenario for claim C4. -/
def c4wRawY : RawItem :=
  { id := "b", name := "y.txt", size := none, createdTime := none, modifiedTime := none, mimeType := none }

/-- The two-page endpoint of the spec's scenario: page 1 carries a
continuation token, page 2 does not. -/
def c4wEp : Option Nat → Except Unit (DrivePage Nat) :=
  fun t =>
    match t with
    | none => Except.ok { files := [c4wRawX], nextPageToken := some 1 }
    | some _ => Except.ok { files := [c4wRawY], nextPageToken := none }

/-- An endpoint whose first page request fails, for claim C5. -/
def c5Ep : Option Nat → Except String (DrivePage Nat) :=
  fun _ => Except.error "boom"

/-- Media files used by the claim C7 counterexample: two images kept by
the filter and one dropped. -/
def c7MA : MediaFile :=
  { id := "1", name := "a.jpg", ext := ".jpg", size := 0, created := "", modified := "",
    mime_type := "", source := "gdrive" }

/-- Second kept image for claim C7. -/
def c7MB : MediaFile :=
  { id := "2", name := "b.jpg", ext := ".jpg", size := 0, created := "", modified := "",
    mime_type := "", source := "gdrive" }

/-- The file the claim C7 filter drops. -/
def c7MC : MediaFile :=
  { id := "3", name := "c.png", ext := ".png", size := 0, created := "", modified := "",
    mime_type := "", source := "gdrive" }

/-- Session state for the claim C7 counterexample: cursor on index 1. -/
def c7St : SessionState :=
  { files := [c7MA, c7MB, c7MC], current_idx := 1, is_playing := false, loop_mode := true,
    loaded := true }

/-- Playing state at the last index of a 2-element collection with loop
mode off, for claim C1. -/
def c1St : SessionState :=
  { files := [], current_idx := 1, is_playing := true, loop_mode := false, loaded := true }

/-- A state with index 1, for the claim C6 witness. -/
def c6St : SessionState :=
  { files := [], current_idx := 1, is_playing := false, loop_mode := true, loaded := false }

theorem charListLe_refl (x : List Char) : charListLe x x = true := by
  induction x with
  | nil => rfl
  | cons a as ih => simpa [charListLe] using ih

theorem addSelfEmod (a n : Int) : (a + n) % n = a % n := by
  rw [Int.add_emod, Int.emod_self, add_zero, Int.emod_emod_of_dvd a dvd_rfl]

theorem nextIdx_emod (n : Nat) (i : Int) : nextIdx n (i % (n : Int)) = (i + 1) % (n : Int) := by
  unfold nextIdx
  rw [Int.add_emod, Int.emod_emod_of_dvd i dvd_rfl, ← Int.add_emod]

theorem nextIdx_iterate (n : Nat) :
    ∀ (k : Nat) (i : Int), (nextIdx n)^[k] (i % (n : Int)) = (i + k) % (n : Int) := by
  intro k
  induction k with
  | zero => intro i; simp
  | succ k ih =>
    intro i
    rw [Function.iterate_succ_apply, nextIdx_emod, ih (i + 1)]
    congr 1
    push_cast
    ring

theorem nextHandler_iterate_idx (n : Nat) :
    ∀ (k : Nat) (s : SessionState),
      ((nextHandler n)^[k] s).current_idx = (nextIdx n)^[k] s.current_idx := by
  intro k
  induction k with
  | zero => intro s; rfl
  | succ k ih =>
    intro s
    rw [Function.iterate_succ_apply, Function.iterate_succ_apply, ih (nextHandler n s)]
    rfl

/-- C6: on a collection of length `N ≥ 1`, from any index in `[0, N)`,
pressing Next `N` times returns the cursor index to its start, and
pressing Prev right after Next restores the index. -/
theorem C6_theorem (n : Nat) (s : SessionState) (_hn : 1 ≤ n)
    (h0 : 0 ≤ s.current_idx) (h1 : s.current_idx < (n : Int)) :
    ((nextHandler n)^[n] s).current_idx = s.current_idx ∧
    (prevHandler n (nextHandler n s)).current_idx = s.current_idx := by
  have hmod : s.current_idx % (n : Int) = s.current_idx := Int.emod_eq_of_lt h0 h1
  constructor
  · rw [nextHandler_iterate_idx]
    calc (nextIdx n)^[n] s.current_idx
        = (nextIdx n)^[n] (s.current_idx % (n : Int)) := by rw [hmod]
      _ = (s.current_idx + (n : Int)) % (n : Int) := nextIdx_iterate n n s.current_idx
      _ = s.current_idx % (n : Int) := addSelfEmod s.current_idx (n : Int)
      _ = s.current_idx := hmod
  · show prevIdx n (nextIdx n s.current_idx) = s.current_idx
    unfold prevIdx nextIdx
    rw [Int.sub_emod ((s.current_idx + 1) % (n : Int)) 1 (n : Int),
        Int.emod_emod_of_dvd _ dvd_rfl, ← Int.sub_emod]
    simpa using hmod

/-- Witness for C6 at `N = 3`, starting index 1. -/
theorem C6_witness :
    ((nextHandler 3)^[3] c6St).current_idx = 1 ∧
    (prevHandler 3 (nextHandler 3 c6St)).current_idx = 1 :=
  C6_theorem 3 c6St (by decide) (by decide) (by decide)

/-- C10: every manual navigation handler — First, Prev, Next, Last,
Random — leaves `is_playing = false`, so manual navigation always pauses
a running slideshow. -/
theorem C10_theorem (n : Nat) (r : Int) (s : SessionState) :
    (firstHandler s).is_playing = false ∧
    (prevHandler n s).is_playing = false ∧
    (nextHandler n s).is_playing = false ∧
    (lastHandler n s).is_playing = false ∧
    (randomHandler r s).is_playing = false :=
  ⟨rfl, rfl, rfl, rfl, rfl⟩

/-- C1 counterexample: with 2 files, playing, loop off, index 1 (the last
element), the auto-advance tick does stop the slideshow but leaves the
index at 0, not at `N - 1 = 1` as the claim states. -/
theorem C1_counterexample :
    (autoTick 2 c1St).is_playing = false ∧
    (autoTick 2 c1St).current_idx = 0 ∧
    (autoTick 2 c1St).current_idx ≠ 2 - 1 := by
  refine ⟨by decide, by decide, by decide⟩

/-- C1 amended: when the cursor is playing, loop is off, and the index is
at the last element `N - 1` of a collection of length `N ≥ 1`, the next
tick transitions Playing to Ready and wraps the index to 0. -/
theorem C1_theorem (n : Nat) (s : SessionState) (_hn : 1 ≤ n)
    (hp : s.is_playing = true) (hl : s.loop_mode = false)
    (hi : s.current_idx = (n : Int) - 1) :
    (autoTick n s).is_playing = false ∧ (autoTick n s).current_idx = 0 := by
  have hwrap : nextIdx n s.current_idx = 0 := by
    unfold nextIdx
    rw [hi]
    simp [Int.emod_self]
  unfold autoTick
  rw [hp, hl]
  simp [hwrap]

/-- Witness for the amended C1 at `N = 2`. -/
theorem C1_witness :
    (autoTick 2 c1St).is_playing = false ∧ (autoTick 2 c1St).current_idx = 0 :=
  C1_theorem 2 c1St (by decide) rfl rfl (by decide)

theorem searchAfterLit_none_of_not_contains (lit : List Char) :
    ∀ u : List Char, containsSub lit u = false → searchAfterLit lit u = none := by
  intro u
  induction u with
  | nil => intro _; rfl
  | cons c rest ih =>
    intro h
    unfold containsSub at h
    rw [Bool.or_eq_false_iff] at h
    unfold searchAfterLit
    rw [h.1]
    exact ih h.2

/-- C2 counterexample: the code resolves the `id=` pattern before the
`/folders/` pattern (so `"x/folders/AAA?id=BBB"` yields `BBB`, not the
`AAA` the claim's priority order demands), and it has no bare-identifier
fallback (so `"abc123"` yields no identifier at all, where the claim
demands `abc123`). -/
theorem C2_counterexample :
    extract_folder_id "x/folders/AAA?id=BBB" = some "BBB" ∧
    extractClaim "x/folders/AAA?id=BBB" = some "AAA" ∧
    extract_folder_id "abc123" = none ∧
    extractClaim "abc123" = some "abc123" := by
  refine ⟨by decide, by decide, by decide, by decide⟩

theorem idSearch_none_of_not_contains (u : List Char)
    (h : containsSub "id=".toList u = false) : idSearch u = none :=
  searchAfterLit_none_of_not_contains "id=".toList u h

theorem folderSearch_none_of_not_contains (u : List Char)
    (h : containsSub "/folders/".toList u = false) : folderSearch u = none :=
  searchAfterLit_none_of_not_contains "/folders/".toList u h

/-- C2 amended: for every input string, `extract_folder_id` tries the
`id=` pattern first, then the `/folders/` pattern, returns the first
match, and returns `none` (surfaced as "Invalid Google Drive URL") when
neither matches; there is no bare-identifier fallback. -/
theorem C2_theorem (url : String) : extract_folder_id url = extractAmended url := by
  unfold extract_folder_id extractAmended
  cases h1 : containsSub "id=".toList url.toList with
  | false =>
    rw [if_neg (by simp [h1]), idSearch_none_of_not_contains url.toList h1]
    cases h2 : containsSub "/folders/".toList url.toList with
    | false =>
      rw [if_neg (by simp [h2]), folderSearch_none_of_not_contains url.toList h2]
    | true => rw [if_pos rfl]
  | true =>
    rw [if_pos rfl]
    cases hs : idSearch url.toList with
    | none =>
      cases h2 : containsSub "/folders/".toList url.toList with
      | false =>
        rw [if_neg (by simp [h2]), folderSearch_none_of_not_contains url.toList h2]
      | true => rw [if_pos rfl]
    | some g => rfl

theorem loadLoop_chain {τ ε : Type} {ep : Option τ → Except ε (DrivePage τ)}
    {t : Option τ} {ps : List (List RawItem)} (h : PageChain ep t ps) :
    ∀ acc : List MediaFile,
      loadLoop ep ps.length t acc =
        some (Except.ok (acc ++ ps.flatten.filterMap mediaOf)) := by
  induction h with
  | last hep =>
    intro acc
    simp [loadLoop, hep]
  | more hep _ ih =>
    intro acc
    rw [List.length_cons]
    unfold loadLoop
    rw [hep]
    simp only []
    rw [ih]
    simp [List.filterMap_append]

theorem loadLoop_chain_short {τ ε : Type} {ep : Option τ → Except ε (DrivePage τ)}
    {t : Option τ} {ps : List (List RawItem)} (h : PageChain ep t ps) :
    ∀ (acc : List MediaFile) (f : Nat), f < ps.length → loadLoop ep f t acc = none := by
  induction h with
  | last hep =>
    intro acc f hf
    have : f = 0 := by simpa using Nat.lt_one_iff.mp (by simpa using hf)
    subst this
    rfl
  | more hep _ ih =>
    intro acc f hf
    cases f with
    | zero => rfl
    | succ g =>
      unfold loadLoop
      rw [hep]
      exact ih _ g (by simpa using Nat.succ_lt_succ_iff.mp hf)

theorem loadLoop_chainErr {τ ε : Type} {ep : Option τ → Except ε (DrivePage τ)}
    {t : Option τ} {k : Nat} {e : ε} (h : PageChainErr ep t k e) :
    ∀ (acc : List MediaFile) (f : Nat), k < f →
      loadLoop ep f t acc = some (Except.error e) := by
  induction h with
  | here hep =>
    intro acc f hf
    cases f with
    | zero => exact absurd hf (by omega)
    | succ g =>
      unfold loadLoop
      rw [hep]
  | later hep _ ih =>
    intro acc f hf
    cases f with
    | zero => exact absurd hf (by omega)
    | succ g =>
      unfold loadLoop
      rw [hep]
      exact ih _ g (by omega)

theorem extCore_of_no_dot (name : List Char) (h : '.' ∉ name) : extCore name = [] := by
  unfold extCore
  have hall : ∀ c ∈ (name.reverse).takeWhile (fun c => c != '/'), (c != '.') = true := by
    intro c hc
    have hmem : c ∈ name := List.mem_reverse.mp ((List.takeWhile_sublist _).subset hc)
    simp only [bne_iff_ne, ne_eq]
    intro hEq
    subst hEq
    exact h hmem
  simp only [List.takeWhile_eq_self_iff.mpr hall]
  simp

theorem mediaOf_none_of_no_dot (it : RawItem) (h : '.' ∉ it.name.toList) :
    mediaOf it = none := by
  unfold mediaOf
  rw [extCore_of_no_dot it.name.toList h]
  rfl

/-- C3 counterexample: the endpoint delivers "b.jpg" before "a.jpg";
`load_gdrive_files` preserves that order, but the load handler the caller
goes through stores the collection sorted by name, so the caller observes
"a.jpg" before "b.jpg" — a client-side re-sort the caller never asked
for. -/
theorem C3_counterexample :
    load_gdrive_files c3Ep 1 = some (none, [c3MB, c3MA]) ∧
    (loadFilesHandler [c3MB, c3MA] c3St).files = [c3MA, c3MB] ∧
    ([c3MA, c3MB] : List MediaFile) ≠ [c3MB, c3MA] := by
  refine ⟨by decide, by decide, by decide⟩

/-- C3 amended: `load_gdrive_files` itself concatenates pages in arrival
order with no re-sort, but the "Load Files from Google Drive" handler
always stores the result re-sorted by name (a permutation of the listing,
sorted under `nameLe`) with the cursor reset to 0, so the caller observes
the name-sorted sequence, not the arrival order. -/
theorem C3_theorem {τ ε : Type} (ep : Option τ → Except ε (DrivePage τ))
    (ps : List (List RawItem)) (h : PageChain ep none ps)
    (fs : List MediaFile) (s : SessionState) (hfs : fs ≠ []) :
    load_gdrive_files ep ps.length = some (none, ps.flatten.filterMap mediaOf) ∧
    List.Perm (loadFilesHandler fs s).files fs ∧
    List.Sorted nameLe (loadFilesHandler fs s).files ∧
    (loadFilesHandler fs s).current_idx = 0 := by
  have hne : fs.isEmpty = false := by
    cases fs with
    | nil => exact absurd rfl hfs
    | cons a l => rfl
  refine ⟨?_, ?_, ?_, ?_⟩
  · unfold load_gdrive_files
    rw [loadLoop_chain h []]
    simp
  · rw [loadFilesHandler, if_neg (by simp [hne])]
    exact List.perm_insertionSort nameLe fs
  · rw [loadFilesHandler, if_neg (by simp [hne])]
    exact List.sorted_insertionSort nameLe fs
  · rw [loadFilesHandler, if_neg (by simp [hne])]

/-- Witness for the amended C3: one page arriving as ["b.jpg", "a.jpg"]. -/
theorem C3_witness :
    load_gdrive_files c3Ep 1 = some (none, [[c3RawB, c3RawA]].flatten.filterMap mediaOf) ∧
    List.Perm (loadFilesHandler [c3MB, c3MA] c3St).files [c3MB, c3MA] ∧
    List.Sorted nameLe (loadFilesHandler [c3MB, c3MA] c3St).files ∧
    (loadFilesHandler [c3MB, c3MA] c3St).current_idx = 0 :=
  C3_theorem c3Ep [[c3RawB, c3RawA]] (PageChain.last rfl) [c3MB, c3MA] c3St (by decide)

/-- C4 counterexample: an entry named ".jpg" has a dot and its trailing
dot-suffix ".jpg" is in the allowlist, so the claim demands it be
returned; but `os.path.splitext` gives it no extension, so the code skips
it and the listing comes back empty. -/
theorem C4_counterexample :
    claimKeep c4DotRaw = true ∧
    mediaOf c4DotRaw = none ∧
    load_gdrive_files c4DotEp 1 = some (none, []) := by
  refine ⟨by decide, by decide, by decide⟩

/-- C4 amended: for every page chain served by the endpoint, the listing
returns exactly the entries across all pages (in order) whose
`os.path.splitext` extension, lowercased, is in the allowlist; it stops
requesting exactly when a response carries no continuation token (one
request per served page: any smaller fuel leaves the loop still running);
entries with no dot in their name are skipped, not errored — but a name
whose basename is only dots before the suffix (such as ".jpg") is also
skipped, unlike the claim's "trailing dot-suffix" reading. -/
theorem C4_theorem {τ ε : Type} (ep : Option τ → Except ε (DrivePage τ))
    (ps : List (List RawItem)) (h : PageChain ep none ps) :
    load_gdrive_files ep ps.length = some (none, ps.flatten.filterMap mediaOf) ∧
    (∀ f, f < ps.length → load_gdrive_files ep f = none) ∧
    (∀ it : RawItem, '.' ∉ it.name.toList → mediaOf it = none) := by
  refine ⟨?_, ?_, fun it hit => mediaOf_none_of_no_dot it hit⟩
  · unfold load_gdrive_files
    rw [loadLoop_chain h []]
    simp
  · intro f hf
    unfold load_gdrive_files
    rw [loadLoop_chain_short h [] f hf]

/-- Witness for the amended C4: the spec's two-page scenario — page 1
serves "x.jpg" with a token, page 2 serves "y.txt" without one. -/
theorem C4_witness :
    load_gdrive_files c4wEp 2 = some (none, [[c4wRawX], [c4wRawY]].flatten.filterMap mediaOf) ∧
    (∀ f, f < 2 → load_gdrive_files c4wEp f = none) ∧
    (∀ it : RawItem, '.' ∉ it.name.toList → mediaOf it = none) :=
  C4_theorem c4wEp [[c4wRawX], [c4wRawY]] (PageChain.more rfl (PageChain.last rfl))

/-- C5: if any page request of the listing loop fails with a transport
error `e`, `load_gdrive_files` surfaces exactly that error (the
`st.error` message wraps it) and returns the empty list: every partially
accumulated page is discarded, and the caller never stores a truncated
collection as a success. -/
theorem C5_theorem {τ ε : Type} (ep : Option τ → Except ε (DrivePage τ))
    {k : Nat} {e : ε} (h : PageChainErr ep none k e) (fuel : Nat) (hf : k < fuel) :
    load_gdrive_files ep fuel = some (some e, []) := by
  unfold load_gdrive_files
  rw [loadLoop_chainErr h [] fuel hf]

/-- Witness for C5: the first page request fails with "boom". -/
theorem C5_witness : load_gdrive_files c5Ep 1 = some (some "boom", []) :=
  C5_theorem c5Ep (PageChainErr.here rfl) 1 (by decide)

/-- C7 counterexample: with files [a.jpg, b.jpg, c.png], cursor at 1, and
an extension filter keeping only ".jpg", the filter block genuinely
shrinks the collection yet leaves the cursor at 1 — it clamps the index
instead of resetting it to 0 as the claim states for `applyFilter`. -/
theorem C7_counterexample :
    (filterBlock true true (some [".jpg"]) c7St).1 = [c7MA, c7MB] ∧
    (filterBlock true true (some [".jpg"]) c7St).2 = 1 ∧
    (filterBlock true true (some [".jpg"]) c7St).2 ≠ 0 := by
  refine ⟨by decide, by decide, by decide⟩

/-- C7 amended: the Apply Sort handler (on a nonempty collection)
replaces the collection with the sorted view, resets the cursor to 0
unconditionally, and leaves the play/pause flag unchanged; the filter
block replaces the working view by the filtered one and leaves the
play/pause flag unchanged, but it only clamps the cursor — on a nonempty
filtered view the index is kept whenever it is still in range and reset
to 0 only when it is at or past the end, and when the filter empties the
view the code merely warns and leaves the index untouched. -/
theorem C7_theorem (opt : SortOption) (sh : List MediaFile → List MediaFile)
    (s : SessionState) (hne : s.files ≠ []) (showImages showVideos : Bool)
    (sel : Option (List String)) :
    (applySortHandler opt sh s).current_idx = 0 ∧
    (applySortHandler opt sh s).is_playing = s.is_playing ∧
    (applySortHandler opt sh s).files = sortFiles opt sh s.files ∧
    ((filterBlock showImages showVideos sel s).1 ≠ [] →
      s.current_idx < ((filterBlock showImages showVideos sel s).1.length : Int) →
      (filterBlock showImages showVideos sel s).2 = s.current_idx) ∧
    ((filterBlock showImages showVideos sel s).1 ≠ [] →
      ((filterBlock showImages showVideos sel s).1.length : Int) ≤ s.current_idx →
      (filterBlock showImages showVideos sel s).2 = 0) ∧
    ((filterBlock showImages showVideos sel s).1 = [] →
      (filterBlock showImages showVideos sel s).2 = s.current_idx) := by
  have hE : s.files.isEmpty = false := by
    cases hf : s.files with
    | nil => exact absurd hf hne
    | cons a l => rfl
  by_cases hff : (filteredFiles showImages showVideos sel s.files).isEmpty = true
  · have hnil : filteredFiles showImages showVideos sel s.files = [] := by
      cases hc : filteredFiles showImages showVideos sel s.files with
      | nil => rfl
      | cons a l => rw [hc] at hff; exact absurd hff (by simp)
    have hb : filterBlock showImages showVideos sel s =
        (filteredFiles showImages showVideos sel s.files, s.current_idx) := by
      rw [filterBlock, if_pos hff]
    refine ⟨?_, ?_, ?_, ?_, ?_, ?_⟩
    · rw [applySortHandler, if_neg (by simp [hE])]
    · rw [applySortHandler, if_neg (by simp [hE])]
    · rw [applySortHandler, if_neg (by simp [hE])]
    · intro h1 _
      rw [hb] at h1
      exact absurd hnil h1
    · intro h1 _
      rw [hb] at h1
      exact absurd hnil h1
    · intro _
      rw [hb]
  · have hb : filterBlock showImages showVideos sel s =
        (filteredFiles showImages showVideos sel s.files,
          clampIdx (filteredFiles showImages showVideos sel s.files).length s.current_idx) := by
      rw [filterBlock, if_neg hff]
    refine ⟨?_, ?_, ?_, ?_, ?_, ?_⟩
    · rw [applySortHandler, if_neg (by simp [hE])]
    · rw [applySortHandler, if_neg (by simp [hE])]
    · rw [applySortHandler, if_neg (by simp [hE])]
    · intro _ hlt
      rw [hb] at hlt
      have hlt2 : s.current_idx <
          ((filteredFiles showImages showVideos sel s.files).length : Int) := hlt
      rw [hb]
      show clampIdx (filteredFiles showImages showVideos sel s.files).length s.current_idx
        = s.current_idx
      rw [clampIdx, if_neg (not_le.mpr hlt2)]
    · intro _ hge
      rw [hb] at hge
      have hge2 : ((filteredFiles showImages showVideos sel s.files).length : Int)
          ≤ s.current_idx := hge
      rw [hb]
      show clampIdx (filteredFiles showImages showVideos sel s.files).length s.current_idx = 0
      rw [clampIdx, if_pos hge2]
    · intro h1
      rw [hb] at h1
      have hnil : filteredFiles showImages showVideos sel s.files = [] := h1
      rw [hnil] at hff
      exact absurd rfl hff

/-- Witness for the amended C7: three-file collection, name sort, no
filtering (the view stays nonempty). -/
theorem C7_witness :
    (applySortHandler SortOption.nameAZ id c7St).current_idx = 0 ∧
    (applySortHandler SortOption.nameAZ id c7St).is_playing = c7St.is_playing ∧
    (applySortHandler SortOption.nameAZ id c7St).files = sortFiles SortOption.nameAZ id c7St.files ∧
    ((filterBlock true true none c7St).1 ≠ [] →
      c7St.current_idx < ((filterBlock true true none c7St).1.length : Int) →
      (filterBlock true true none c7St).2 = c7St.current_idx) ∧
    ((filterBlock true true none c7St).1 ≠ [] →
      ((filterBlock true true none c7St).1.length : Int) ≤ c7St.current_idx →
      (filterBlock true true none c7St).2 = 0) ∧
    ((filterBlock true true none c7St).1 = [] →
      (filterBlock true true none c7St).2 = c7St.current_idx) :=
  C7_theorem SortOption.nameAZ id c7St (by decide) true true none

/-- C8 counterexample: with no cached token and no pasted authorization
code, `initialize_drive_service` exits (returns `None`) with the
temporary credentials file still on disk — an exit path on which the file
is not deleted, contradicting "deleted on every exit path". -/
theorem C8_counterexample :
    initialize_drive_service
      { cached := none, refreshOk := false, authCode := none, fetchOk := false, buildOk := false } =
      (AuthResult.noService, false) := by decide

/-- C8 amended: the temporary credentials file is deleted exactly on the
success path — `os.unlink` runs if and only if the call returns a built
service; every early return and every exception path leaves the file
behind. -/
theorem C8_theorem (sc : AuthScenario) :
    (initialize_drive_service sc).2 = true ↔
      (initialize_drive_service sc).1 = AuthResult.service := by
  obtain ⟨c, r, a, f, b⟩ := sc
  cases c with
  | none => cases a <;> cases f <;> simp [initialize_drive_service, interactiveExchange]
  | some cs =>
    obtain ⟨v, e, rt⟩ := cs
    cases v <;> cases e <;> cases rt <;> cases r <;> cases b <;> cases a <;> cases f <;>
      simp [initialize_drive_service, interactiveExchange]

theorem downloadLoop_okChunks {ε : Type} (bss : List (List Nat)) :
    ∀ (tail : List (Except ε (List Nat × Bool))) (buf : BytesBuf),
      downloadLoop (bss.map (fun b => Except.ok (b, false)) ++ tail) buf =
        downloadLoop tail (bss.foldl BytesBuf.write buf) := by
  induction bss with
  | nil => intro tail buf; rfl
  | cons b bs ih =>
    intro tail buf
    exact ih tail (BytesBuf.write buf b)

theorem foldl_write_data (bss : List (List Nat)) :
    ∀ buf : BytesBuf, (bss.foldl BytesBuf.write buf).data = buf.data ++ bss.flatten := by
  induction bss with
  | nil => intro buf; simp
  | cons b bs ih =>
    intro buf
    rw [List.foldl_cons, ih]
    simp [BytesBuf.write]

/-- C9: the downloader accumulates every streamed chunk until the
transport reports completion and returns the whole buffer repositioned at
its start; if any `next_chunk` call raises, the shown error wraps exactly
the transport error and the caller receives `None` — no partial buffer is
returned. -/
theorem C9_theorem {ε : Type} (bss : List (List Nat)) (lastChunk : List Nat) (e : ε)
    (rest : List (Except ε (List Nat × Bool))) :
    @download_gdrive_file ε (bss.map (fun b => Except.ok (b, false)) ++ [Except.ok (lastChunk, true)]) =
      some (none, some { data := bss.flatten ++ lastChunk, pos := 0 }) ∧
    download_gdrive_file (bss.map (fun b => Except.ok (b, false)) ++ (Except.error e :: rest)) =
      some (some e, none) := by
  constructor
  · unfold download_gdrive_file
    rw [downloadLoop_okChunks]
    have h1 : ∀ buf : BytesBuf,
        downloadLoop ([Except.ok (lastChunk, true)] : List (Except ε (List Nat × Bool))) buf =
          some (Except.ok ((buf.write lastChunk).seekStart)) := fun _ => rfl
    rw [h1]
    have hd : (((List.foldl BytesBuf.write { data := [], pos := 0 } bss).write lastChunk).seekStart : BytesBuf) =
        { data := bss.flatten ++ lastChunk, pos := 0 } := by
      have h2 : (((List.foldl BytesBuf.write { data := [], pos := 0 } bss).write lastChunk).seekStart : BytesBuf) =
          { data := (List.foldl BytesBuf.write { data := [], pos := 0 } bss).data ++ lastChunk, pos := 0 } := rfl
      rw [h2, foldl_write_data bss { data := [], pos := 0 }]
      simp
    rw [hd]
  · unfold download_gdrive_file
    rw [downloadLoop_okChunks]
    rfl
